import Mathlib

/-!
Verification of the inventory-management backend's core sale/stock logic.

The definitions below are shallow embeddings of the Python source:

* `app/crud/sale.py` — `CRUDSale.generate_sale_number`, `CRUDSale.create`,
  `CRUDSale.cancel`, `CRUDSale.delete`;
* `app/crud/product.py` — `CRUDProduct.create`, `CRUDProduct.update`,
  `CRUDProduct.update_stock`, `CRUDProduct.bulk_update_stock`;
* `app/models/product.py`, `app/models/sale.py` — the row types.

Monetary values (`DECIMAL` columns and Python `Decimal` arithmetic) are
modelled as exact rationals `ℚ`; stock counts (SQL `Integer`) as `ℤ`;
timestamps as an abstract `Nat` clock passed in by the caller.  The database
is modelled by its committed state: a list of product rows and a list of sale
rows.  Each operation returns the committed state it leaves behind — a failed
`create` performs no commit (the request-scoped session is closed and its
pending changes discarded), so it returns the input state unchanged.
-/

namespace Inventory

/-! ## Decimal rendering of naturals, as Python `str` / `f"{n:03d}"` -/

/-- Fuel-driven worker for `natDigits`; `fuel` only bounds the recursion. -/
def natDigitsGo : Nat → Nat → List Char
  | 0, _ => []
  | fuel + 1, n =>
    if n < 10 then [Nat.digitChar n]
    else natDigitsGo fuel (n / 10) ++ [Nat.digitChar (n % 10)]

/-- The decimal digits of `n`, most significant first — Python `str(n)` for
a non-negative `n`. -/
def natDigits (n : Nat) : List Char := natDigitsGo (n + 1) n

/-- Python `f"{n:03d}"`: the decimal rendering of `n`, left-padded with `'0'`
to at least three characters. -/
def pad3 (n : Nat) : String :=
  let ds := natDigits n
  ⟨List.replicate (3 - ds.length) '0' ++ ds⟩

/-- Decimal parsing of a digit string — Python `int(s)` for non-negative
digit-only input. -/
def parseNatChars (cs : List Char) : Nat :=
  cs.foldl (fun a c => a * 10 + (c.toNat - 48)) 0

/-- The segment of `cs` after its last `'-'` (all of `cs` if none) —
Python `s.split("-")[-1]`. -/
def lastDashSeg (cs : List Char) : List Char :=
  ((cs.reverse.takeWhile (fun c => c != '-')).reverse)

/-- Python `int(sale_number.split("-")[-1])` from
`CRUDSale.generate_sale_number`. -/
def parseSeq (s : String) : Nat := parseNatChars (lastDashSeg s.data)

/-! ## Byte-wise string comparison, as the database's `ORDER BY … DESC` -/

/-- Strict lexicographic order on code points, the order the database uses
for `ORDER BY sale_number DESC` on an ASCII column. -/
def lexLt : List Char → List Char → Bool
  | _, [] => false
  | [], _ :: _ => true
  | a :: as, b :: bs => a.toNat < b.toNat || (a.toNat == b.toNat && lexLt as bs)

/-- One comparison step of the scan for the greatest string. -/
def maxStep (acc : Option String) (s : String) : Option String :=
  match acc with
  | none => some s
  | some m => if lexLt m.data s.data then some s else some m

/-- `ORDER BY s DESC … first()`: the greatest string of the list under
`lexLt`, `none` on an empty list. -/
def maxString (l : List String) : Option String :=
  l.foldl maxStep none

/-! ## `CRUDSale.generate_sale_number` -/

/-- Embeds `CRUDSale.generate_sale_number` (`app/crud/sale.py`).  `today` is
the `YYYYMMDD` rendering of the current date; `numbers` the `sale_number`
column of the sales table.  The query filters on `LIKE "SAL-<today>-%"` and
takes the row with the largest `sale_number` in string order. -/
def generateSaleNumber (today : String) (numbers : List String) : String :=
  let pfx : String := "SAL-" ++ today
  let candidates := numbers.filter (fun s => (pfx ++ "-").data.isPrefixOf s.data)
  match maxString candidates with
  | none => pfx ++ "-001"
  | some last => pfx ++ "-" ++ pad3 (parseSeq last + 1)

/-- Maximum of two naturals (spelled out so its equations rewrite directly). -/
def natMax (a b : Nat) : Nat := if a < b then b else a

/-- Highest numeric same-day sequence, written from the spec's words
("finding the highest existing sequence number among sales whose number
starts with today's date prefix") — the claimed behaviour, to be compared
against `generateSaleNumber`'s string-order choice. -/
def specHighestSeq (today : String) (numbers : List String) : Nat :=
  let pfx : String := "SAL-" ++ today
  ((numbers.filter (fun s => (pfx ++ "-").data.isPrefixOf s.data)).map parseSeq).foldl
    natMax 0

/-- The two-sale store on which string order and numeric order part ways. -/
def saleNumCex : List String := ["SAL-20261012-999", "SAL-20261012-1000"]

/-! ## Row types (`app/models/product.py`, `app/models/sale.py`) -/

/-- A committed row of the `products` table, restricted to the columns the
core operations read or write. -/
structure Product where
  id : Nat
  sku : String
  name : String
  barcode : Option String
  cost_price : ℚ
  selling_price : ℚ
  margin : Option ℚ
  current_stock : Int
  is_active : Bool
  tax_rate : ℚ
  last_restocked : Option Nat
deriving DecidableEq, Repr

/-- A committed row of the `sale_items` table. -/
structure SaleItem where
  product_id : Nat
  quantity : Int
  unit_price : ℚ
  tax_rate : ℚ
  tax_amount : ℚ
  discount_percent : ℚ
  discount_amount : ℚ
  subtotal : ℚ
  total : ℚ
  product_name : String
  product_sku : String
  product_barcode : Option String
deriving DecidableEq, Repr

/-- A committed row of the `sales` table together with its owned
`sale_items` rows (`Sale.items` relationship, cascade-deleted). -/
structure Sale where
  id : Nat
  sale_number : String
  customer_name : Option String
  total_amount : ℚ
  tax_amount : ℚ
  discount_amount : ℚ
  grand_total : ℚ
  payment_method : String
  payment_status : String
  status : String
  items : List SaleItem
deriving DecidableEq, Repr

/-- The committed database state the core operations act on. -/
structure DB where
  products : List Product
  sales : List Sale
deriving DecidableEq, Repr

/-! ## Primary-key lookups and first-match row updates

`db.query(…).filter(Model.id == pk).first()` scans for the first row with
the given primary key; an `UPDATE` through the session object touches
exactly that row. -/

/-- `db.query(Product).filter(Product.id == pid).first()`. -/
def findP : List Product → Nat → Option Product
  | [], _ => none
  | p :: ps, pid => if p.id = pid then some p else findP ps pid

/-- Replace the first product row whose id is `pid` by `f` of it. -/
def setP : List Product → Nat → (Product → Product) → List Product
  | [], _, _ => []
  | p :: ps, pid, f => if p.id = pid then f p :: ps else p :: setP ps pid f

/-- `db.query(Sale).filter(Sale.id == sid).first()` (`CRUDSale.get`). -/
def findSale : List Sale → Nat → Option Sale
  | [], _ => none
  | s :: ss, sid => if s.id = sid then some s else findSale ss sid

/-- Replace the first sale row whose id is `sid` by `s'`. -/
def setSale : List Sale → Nat → Sale → List Sale
  | [], _, _ => []
  | s :: ss, sid, s' => if s.id = sid then s' :: ss else s :: setSale ss sid s'

/-- Remove the first sale row whose id is `sid` (`db.delete(db_sale)`;
its items go with it by cascade). -/
def removeSale : List Sale → Nat → List Sale
  | [], _ => []
  | s :: ss, sid => if s.id = sid then ss else s :: removeSale ss sid

/-! ## `CRUDProduct.create` and `CRUDProduct.update` (margin logic) -/

/-- The request body of a product creation (`ProductCreate` schema in
`app/schemas/product.py`), restricted to the columns the embedding keeps. -/
structure ProductCreate where
  sku : String
  name : String
  barcode : Option String
  cost_price : ℚ
  selling_price : ℚ
  current_stock : Int
  is_active : Bool
  tax_rate : ℚ
deriving DecidableEq, Repr

/-- A product update request (`ProductUpdate` schema), restricted to the two
pricing columns, the only inputs of the margin recomputation; `none` means
the field was absent from the request (`exclude_unset=True`). -/
structure ProductUpdate where
  cost_price : Option ℚ
  selling_price : Option ℚ
deriving DecidableEq, Repr

/-- Embeds `CRUDProduct.create` (`app/crud/product.py`): margin is computed
iff `cost_price > 0`, and `last_restocked` is stamped iff the initial stock
is positive.  `pid` is the database-assigned key, `now` the current time. -/
def productCreate (pid : Nat) (now : Nat) (pc : ProductCreate) : Product :=
  { id := pid
    sku := pc.sku
    name := pc.name
    barcode := pc.barcode
    cost_price := pc.cost_price
    selling_price := pc.selling_price
    margin :=
      if pc.cost_price > 0 then
        some ((pc.selling_price - pc.cost_price) / pc.cost_price * 100)
      else none
    current_stock := pc.current_stock
    is_active := pc.is_active
    tax_rate := pc.tax_rate
    last_restocked := if pc.current_stock > 0 then some now else none }

/-- Embeds the pricing part of `CRUDProduct.update`: the margin is
recomputed only when a price field is present in the request *and* the
effective cost price is positive; otherwise the stored margin is carried
over unchanged. -/
def productUpdate (p : Product) (u : ProductUpdate) : Product :=
  if u.cost_price.isSome || u.selling_price.isSome then
    let c := u.cost_price.getD p.cost_price
    let s := u.selling_price.getD p.selling_price
    let m := if c > 0 then some ((s - c) / c * 100) else p.margin
    { p with cost_price := c, selling_price := s, margin := m }
  else p

/-! ## `CRUDProduct.update_stock` and `CRUDProduct.bulk_update_stock` -/

/-- The product row after a successful stock adjustment by `q` at time
`now`: stock increased by `q`, restock timestamp stamped iff `q > 0`
(`db_product.current_stock = new_stock; if quantity > 0: last_restocked = now`). -/
def stockAdjusted (p : Product) (q : Int) (now : Nat) : Product :=
  { p with
    current_stock := p.current_stock + q
    last_restocked := if q > 0 then some now else p.last_restocked }

/-- Embeds `CRUDProduct.update_stock`: missing product or a stock that would
go negative leaves the committed store untouched and returns `none`; on
success the stock becomes `current_stock + quantity` and `last_restocked`
is stamped iff `quantity > 0`. -/
def updateStock (ps : List Product) (pid : Nat) (quantity : Int) (now : Nat) :
    Option Product × List Product :=
  match findP ps pid with
  | none => (none, ps)
  | some p =>
    let new_stock := p.current_stock + quantity
    if new_stock < 0 then (none, ps)
    else
      let p' := stockAdjusted p quantity now
      (some p', setP ps pid (fun _ => p'))

/-- Embeds `CRUDProduct.bulk_update_stock`: the updates (a Python dict, so
the keys are distinct) are applied in order, each product independently;
the result map records per-product success. -/
def bulkUpdateStock (ps : List Product) (updates : List (Nat × Int)) (now : Nat) :
    List (Nat × Bool) × List Product :=
  match updates with
  | [] => ([], ps)
  | (pid, quantity) :: rest =>
    match findP ps pid with
    | none =>
      let r := bulkUpdateStock ps rest now
      ((pid, false) :: r.1, r.2)
    | some p =>
      let new_stock := p.current_stock + quantity
      if new_stock ≥ 0 then
        let p' := stockAdjusted p quantity now
        let r := bulkUpdateStock (setP ps pid (fun _ => p')) rest now
        ((pid, true) :: r.1, r.2)
      else
        let r := bulkUpdateStock ps rest now
        ((pid, false) :: r.1, r.2)

/-! ## `CRUDSale.create` -/

/-- One entry of the request's item list (`SaleItemCreate` schema,
`app/schemas/sale.py`); the schema validates `quantity > 0`. -/
structure SaleItemCreate where
  product_id : Nat
  quantity : Int
  unit_price : ℚ
  tax_rate : ℚ
  discount_percent : ℚ
deriving DecidableEq, Repr

/-- The sale-creation request (`SaleCreate` schema), restricted to the
fields `CRUDSale.create` reads. -/
structure SaleCreate where
  customer_name : Option String
  payment_method : String
  payment_status : String
  status : String
  items : List SaleItemCreate
deriving DecidableEq, Repr

/-- `f"Product ID {item_data.product_id} not found"`. -/
def productNotFoundMsg (pid : Nat) : String :=
  s!"Product ID {pid} not found"

/-- `f"Insufficient stock for {product.name}. Available: {product.current_stock}"`. -/
def insufficientStockMsg (name : String) (stock : Int) : String :=
  s!"Insufficient stock for {name}. Available: {stock}"

/-- The sale item row built from a locked product row and a request item
(`sale_item = SaleItem(...)` in `CRUDSale.create`), holding the four derived
decimal amounts and the product snapshot. -/
def mkSaleItem (p : Product) (ic : SaleItemCreate) : SaleItem :=
  let subtotal := ic.unit_price * ic.quantity
  let discount_amount := subtotal * (ic.discount_percent / 100)
  let taxable_amount := subtotal - discount_amount
  let tax_amount := taxable_amount * (ic.tax_rate / 100)
  { product_id := p.id
    quantity := ic.quantity
    unit_price := ic.unit_price
    tax_rate := ic.tax_rate
    tax_amount := tax_amount
    discount_percent := ic.discount_percent
    discount_amount := discount_amount
    subtotal := subtotal
    total := taxable_amount + tax_amount
    product_name := p.name
    product_sku := p.sku
    product_barcode := p.barcode }

/-- The per-item loop of `CRUDSale.create`: each item re-reads the product
through the session (so it sees the stock decrements of earlier items of
the same request), aborts on a missing product or insufficient stock, and
otherwise accumulates the line item, the three running totals and the stock
decrement.  On abort the loop's pending changes are never committed. -/
def processItems (ps : List Product) (acc : List SaleItem) (ta tt td : ℚ) :
    List SaleItemCreate → Except String (List Product × List SaleItem × ℚ × ℚ × ℚ)
  | [] => .ok (ps, acc, ta, tt, td)
  | ic :: rest =>
    match findP ps ic.product_id with
    | none => .error (productNotFoundMsg ic.product_id)
    | some p =>
      if p.current_stock < ic.quantity then
        .error (insufficientStockMsg p.name p.current_stock)
      else
        let item := mkSaleItem p ic
        processItems
          (setP ps ic.product_id
            (fun q => { q with current_stock := q.current_stock - ic.quantity }))
          (acc ++ [item])
          (ta + item.subtotal) (tt + item.tax_amount) (td + item.discount_amount)
          rest

/-- A fresh primary key for the next sale row. -/
def nextSaleId (db : DB) : Nat :=
  (db.sales.map Sale.id).foldl natMax 0 + 1

/-- Embeds `CRUDSale.create`: generates the sale number, runs the item loop,
and on success commits the sale row (with totals, grand total and the
cash/completed payment auto-completion) together with the stock decrements.
On failure nothing is committed, so the input state is returned. -/
def createSale (today : String) (db : DB) (sc : SaleCreate) :
    Option Sale × String × DB :=
  let number := generateSaleNumber today (db.sales.map Sale.sale_number)
  match processItems db.products [] 0 0 0 sc.items with
  | .error msg => (none, msg, db)
  | .ok (ps', items', ta, tt, td) =>
    let sale : Sale :=
      { id := nextSaleId db
        sale_number := number
        customer_name := sc.customer_name
        total_amount := ta
        tax_amount := tt
        discount_amount := td
        grand_total := ta + tt - td
        payment_method := sc.payment_method
        payment_status :=
          if sc.payment_method = "cash" ∧ sc.status = "completed" then "paid"
          else sc.payment_status
        status := sc.status
        items := items' }
    (some sale, "Sale created successfully", ⟨ps', db.sales ++ [sale]⟩)

/-! ## `CRUDSale.cancel` and `CRUDSale.delete` -/

/-- The stock-restoration loop of `CRUDSale.cancel`: for every line item
whose product row still exists, add the item's quantity back. -/
def restoreItems (ps : List Product) : List SaleItem → List Product
  | [] => ps
  | it :: rest =>
    match findP ps it.product_id with
    | none => restoreItems ps rest
    | some _ =>
      restoreItems
        (setP ps it.product_id
          (fun q => { q with current_stock := q.current_stock + it.quantity }))
        rest

/-- Embeds `CRUDSale.cancel`: a missing sale or an already-cancelled sale is
rejected without touching the store; otherwise stock is restored per item,
the status becomes `cancelled`, and the payment status becomes `refunded`
iff it was `paid` (else `pending`). -/
def cancelSale (db : DB) (sale_id : Nat) : Bool × String × DB :=
  match findSale db.sales sale_id with
  | none => (false, "Sale not found", db)
  | some s =>
    if s.status = "cancelled" then (false, "Sale is already cancelled", db)
    else
      let s' := { s with
        status := "cancelled"
        payment_status := if s.payment_status = "paid" then "refunded" else "pending" }
      (true, "Sale cancelled successfully",
        ⟨restoreItems db.products s.items, setSale db.sales sale_id s'⟩)

/-- Embeds `CRUDSale.delete`: only an existing sale in `draft` status is
removed (with its items, by cascade); stock is not restored. -/
def deleteSale (db : DB) (sale_id : Nat) : Bool × DB :=
  match findSale db.sales sale_id with
  | none => (false, db)
  | some s =>
    if s.status ≠ "draft" then (false, db)
    else (true, ⟨db.products, removeSale db.sales sale_id⟩)

/-! ## Predicates used by the claims -/

/-- The request item references a missing product or exceeds its stock, read
against the given store (`itemBad` of claim C1's hypothesis). -/
def itemBad (ps : List Product) (ic : SaleItemCreate) : Bool :=
  match findP ps ic.product_id with
  | none => true
  | some p => p.current_stock < ic.quantity

/-- The failure message names the offending product or the failed stock
constraint. -/
def msgNamesOffender (msg : String) : Prop :=
  (∃ pid, msg = productNotFoundMsg pid) ∨
  (∃ name stock, msg = insufficientStockMsg name stock)

/-- `ps` has the same product rows as `qs` with pointwise no larger stock
(the working store of the item loop versus the committed store). -/
def storeLe (ps qs : List Product) : Prop :=
  ∀ pid, match findP ps pid, findP qs pid with
    | none, none => True
    | some p, some q => p.current_stock ≤ q.current_stock
    | _, _ => False

/-- Every product row of the store has non-negative stock. -/
def stocksNonneg (ps : List Product) : Prop :=
  ∀ p ∈ ps, 0 ≤ p.current_stock

/-- Every stored line item has non-negative quantity (guaranteed by the
`quantity > 0` schema validation at creation time). -/
def saleQtysNonneg (sales : List Sale) : Prop :=
  ∀ s ∈ sales, ∀ it ∈ s.items, 0 ≤ it.quantity

/-- The four line-item formulas of §3 of the spec. -/
def itemFormulasOk (it : SaleItem) : Prop :=
  it.subtotal = it.unit_price * it.quantity ∧
  it.discount_amount = it.subtotal * (it.discount_percent / 100) ∧
  it.tax_amount = (it.subtotal - it.discount_amount) * (it.tax_rate / 100) ∧
  it.total = it.subtotal - it.discount_amount + it.tax_amount

/-- Total quantity the items reference a given product for. -/
def restoredQty (items : List SaleItem) (pid : Nat) : Int :=
  ((items.filter (fun it => it.product_id == pid)).map SaleItem.quantity).sum

/-- Whether a bulk-update entry succeeds against the given store: the
product exists and its stock plus the delta stays non-negative. -/
def bulkOk (ps : List Product) (e : Nat × Int) : Bool :=
  match findP ps e.1 with
  | some p => p.current_stock + e.2 ≥ 0
  | none => false

/-- The expected final row for a product targeted by a bulk-update entry:
adjusted if the delta keeps the stock non-negative, untouched otherwise. -/
def bulkExpected (now : Nat) (q : Int) (p : Product) : Product :=
  if p.current_stock + q ≥ 0 then stockAdjusted p q now else p

/-- A full sale number as built by `generateSaleNumber`:
`SAL-<today>-<pad3 k>`. -/
def fullNum (today : String) (k : Nat) : String :=
  "SAL-" ++ today ++ "-" ++ pad3 k

/-! ## Concrete stores and requests used by the witnesses -/

/-- A product with 50 units in stock (the spec's §8 scenario). -/
def wProduct : Product :=
  { id := 1, sku := "SKU-1", name := "Widget", barcode := none,
    cost_price := 50, selling_price := 75, margin := some 50,
    current_stock := 50, is_active := true, tax_rate := 18,
    last_restocked := none }

/-- The §8 scenario item: quantity 10, price 75.00, tax 18%, discount 5%. -/
def wItem : SaleItemCreate :=
  { product_id := 1, quantity := 10, unit_price := 75, tax_rate := 18,
    discount_percent := 5 }

/-- An item demanding more than the available stock. -/
def wBadItem : SaleItemCreate :=
  { product_id := 1, quantity := 100, unit_price := 75, tax_rate := 18,
    discount_percent := 0 }

def wDB : DB := ⟨[wProduct], []⟩

def wSaleCreate : SaleCreate :=
  { customer_name := none, payment_method := "cash", payment_status := "pending",
    status := "completed", items := [wItem] }

/-- A request whose first item passes its checks and whose second fails. -/
def wBadSaleCreate : SaleCreate :=
  { wSaleCreate with items := [wItem, wBadItem] }

/-- The expected §8 line item: subtotal 750.00, discount 37.50,
tax 128.25, total 840.75. -/
def wSoldItem : SaleItem :=
  { product_id := 1, quantity := 10, unit_price := 75, tax_rate := 18,
    tax_amount := 128.25, discount_percent := 5, discount_amount := 37.5,
    subtotal := 750, total := 840.75, product_name := "Widget",
    product_sku := "SKU-1", product_barcode := none }

/-- The expected persisted sale for the §8 scenario. -/
def wSale : Sale :=
  { id := 1, sale_number := "SAL-20261012-001", customer_name := none,
    total_amount := 750, tax_amount := 128.25, discount_amount := 37.5,
    grand_total := 840.75, payment_method := "cash", payment_status := "paid",
    status := "completed", items := [wSoldItem] }

/-- `wProduct` after the §8 sale: stock down to 40. -/
def wSoldProduct : Product := { wProduct with current_stock := 40 }

def wDB2 : DB := ⟨[wSoldProduct], [wSale]⟩

/-- The §8 sale as a draft (cash + draft does not auto-complete payment). -/
def wDraftSale : Sale := { wSale with status := "draft", payment_status := "pending" }

def wDraftCreate : SaleCreate := { wSaleCreate with status := "draft" }

def wDB3 : DB := ⟨[wSoldProduct], [wDraftSale]⟩

/-- The §8 margin example: cost 100, selling 150. -/
def pc100 : ProductCreate :=
  { sku := "SKU-2", name := "Gadget", barcode := none, cost_price := 100,
    selling_price := 150, current_stock := 0, is_active := true, tax_rate := 18 }

/-- A price update setting the cost to zero (margin should become null per
the spec; the code keeps the old margin). -/
def marginZeroUpdate : ProductUpdate := { cost_price := some 0, selling_price := none }

/-- A price update with a positive effective cost. -/
def margin80Update : ProductUpdate := { cost_price := some 80, selling_price := none }

/-- The §8 bulk-update product P2 with only 5 in stock. -/
def bulkP2 : Product := { wProduct with id := 2, sku := "SKU-2b", current_stock := 5 }

def wBulkStore : List Product := [wProduct, bulkP2]

/-- The §8 bulk update `{P1: +10, P2: -1000}`. -/
def wBulkUpdates : List (Nat × Int) := [(1, 10), (2, -1000)]

/-! # Lemmas

## Decimal rendering and lexicographic order -/

theorem data_append (s t : String) : (s ++ t).data = s.data ++ t.data := rfl

theorem data_inj {s t : String} (h : s.data = t.data) : s = t :=
  congrArg String.mk h

theorem digitChar_toNat : ∀ d < 10, (Nat.digitChar d).toNat = 48 + d := by decide

theorem digitChar_zero : Nat.digitChar 0 = '0' := rfl

theorem digitChar_ne_dash {d : Nat} (hd : d < 10) : Nat.digitChar d ≠ '-' := by
  intro h
  have h1 := digitChar_toNat d hd
  rw [h] at h1
  have h2 : ('-').toNat = 45 := rfl
  omega

theorem natDigitsGo_small {fuel n : Nat} (hf : 0 < fuel) (hn : n < 10) :
    natDigitsGo fuel n = [Nat.digitChar n] := by
  cases fuel with
  | zero => omega
  | succ f => simp [natDigitsGo, hn]

theorem natDigitsGo_mid {fuel n : Nat} (hf : n < fuel) (h10 : 10 ≤ n) (h99 : n ≤ 99) :
    natDigitsGo fuel n = [Nat.digitChar (n / 10), Nat.digitChar (n % 10)] := by
  cases fuel with
  | zero => omega
  | succ f =>
    have : ¬ n < 10 := by omega
    rw [natDigitsGo, if_neg this, natDigitsGo_small (by omega) (by omega)]
    rfl

theorem pad3_data {n : Nat} (hn : n ≤ 999) :
    (pad3 n).data = [Nat.digitChar (n / 100), Nat.digitChar (n / 10 % 10),
      Nat.digitChar (n % 10)] := by
  rcases Nat.lt_or_ge n 10 with h | h
  · have h1 : natDigits n = [Nat.digitChar n] :=
      natDigitsGo_small (Nat.succ_pos n) h
    have e1 : n / 100 = 0 := by omega
    have e2 : n / 10 % 10 = 0 := by omega
    have e3 : n % 10 = n := by omega
    simp [pad3, h1, e1, e2, e3, List.replicate, digitChar_zero]
  · rcases Nat.lt_or_ge n 100 with h' | h'
    · have h1 : natDigits n = [Nat.digitChar (n / 10), Nat.digitChar (n % 10)] :=
        natDigitsGo_mid (Nat.lt_succ_self n) h (by omega)
      have e1 : n / 100 = 0 := by omega
      have e2 : n / 10 % 10 = n / 10 := by omega
      simp [pad3, h1, e1, e2, List.replicate, digitChar_zero]
    · have hn10 : 10 ≤ n / 10 := by omega
      have hn99 : n / 10 ≤ 99 := by omega
      have h2 : natDigitsGo n (n / 10) =
          [Nat.digitChar (n / 10 / 10), Nat.digitChar (n / 10 % 10)] :=
        natDigitsGo_mid (by omega) hn10 hn99
      have h1 : natDigits n =
          [Nat.digitChar (n / 100), Nat.digitChar (n / 10 % 10),
            Nat.digitChar (n % 10)] := by
        rw [natDigits, natDigitsGo, if_neg (by omega), h2]
        have e3 : n / 10 / 10 = n / 100 := by omega
        rw [e3]
        rfl
      simp [pad3, h1]

theorem lexLt_append_same (p x y : List Char) :
    lexLt (p ++ x) (p ++ y) = lexLt x y := by
  induction p with
  | nil => rfl
  | cons c p ih => simp [lexLt, ih]

theorem lexLt_three (a1 a2 a3 b1 b2 b3 : Char) :
    lexLt [a1, a2, a3] [b1, b2, b3] = true ↔
      (a1.toNat < b1.toNat ∨ (a1.toNat = b1.toNat ∧
        (a2.toNat < b2.toNat ∨ (a2.toNat = b2.toNat ∧ a3.toNat < b3.toNat)))) := by
  simp [lexLt, Bool.or_eq_true, Bool.and_eq_true, decide_eq_true_eq, beq_iff_eq,
    and_assoc]

theorem pad3_lexLt {a b : Nat} (ha : a ≤ 999) (hb : b ≤ 999) :
    lexLt (pad3 a).data (pad3 b).data = true ↔ a < b := by
  rw [pad3_data ha, pad3_data hb, lexLt_three,
    digitChar_toNat (a / 100) (by omega), digitChar_toNat (a / 10 % 10) (by omega),
    digitChar_toNat (a % 10) (by omega), digitChar_toNat (b / 100) (by omega),
    digitChar_toNat (b / 10 % 10) (by omega), digitChar_toNat (b % 10) (by omega)]
  omega

theorem str_append_assoc (a b c : String) : a ++ b ++ c = a ++ (b ++ c) :=
  data_inj (by simp [data_append])

theorem takeWhile_append_stop {p : Char → Bool} {l1 l2 : List Char} {m : Char}
    (h1 : ∀ c ∈ l1, p c = true) (hm : p m = false) :
    (l1 ++ m :: l2).takeWhile p = l1 := by
  induction l1 with
  | nil => simp [List.takeWhile, hm]
  | cons c cs ih =>
    have hc : p c = true := h1 c (List.mem_cons_self c cs)
    simp only [List.cons_append, List.takeWhile, hc, List.append_eq]
    rw [ih (fun d hd => h1 d (List.mem_cons_of_mem c hd))]

theorem lastDashSeg_append {zs ds : List Char} (hds : ∀ c ∈ ds, c ≠ '-') :
    lastDashSeg (zs ++ '-' :: ds) = ds := by
  unfold lastDashSeg
  have e : (zs ++ '-' :: ds).reverse = ds.reverse ++ '-' :: zs.reverse := by
    simp
  rw [e, takeWhile_append_stop
    (fun c hc => by
      have : c ≠ '-' := hds c (List.mem_reverse.mp hc)
      simpa using this)
    (by simp)]
  simp

theorem pad3_chars_ne_dash {k : Nat} (hk : k ≤ 999) :
    ∀ c ∈ (pad3 k).data, c ≠ '-' := by
  rw [pad3_data hk]
  intro c hc
  simp only [List.mem_cons, List.not_mem_nil, or_false] at hc
  rcases hc with rfl | rfl | rfl
  · exact digitChar_ne_dash (by omega)
  · exact digitChar_ne_dash (by omega)
  · exact digitChar_ne_dash (by omega)

theorem parseNatChars_pad3 {k : Nat} (hk : k ≤ 999) :
    parseNatChars (pad3 k).data = k := by
  rw [pad3_data hk]
  simp only [parseNatChars, List.foldl,
    digitChar_toNat (k / 100) (by omega), digitChar_toNat (k / 10 % 10) (by omega),
    digitChar_toNat (k % 10) (by omega)]
  omega

theorem fullNum_data (t : String) (k : Nat) :
    (fullNum t k).data = ("SAL-" ++ t).data ++ '-' :: (pad3 k).data := by
  simp [fullNum, data_append, List.append_assoc]

theorem parseSeq_fullNum {t : String} {k : Nat} (hk : k ≤ 999) :
    parseSeq (fullNum t k) = k := by
  rw [parseSeq, fullNum_data, lastDashSeg_append (pad3_chars_ne_dash hk),
    parseNatChars_pad3 hk]

theorem lexLt_fullNum {t : String} {a b : Nat} (ha : a ≤ 999) (hb : b ≤ 999) :
    lexLt (fullNum t a).data (fullNum t b).data = true ↔ a < b := by
  rw [fullNum_data, fullNum_data]
  have e1 : ("SAL-" ++ t).data ++ '-' :: (pad3 a).data =
      (("SAL-" ++ t).data ++ ['-']) ++ (pad3 a).data := by simp
  have e2 : ("SAL-" ++ t).data ++ '-' :: (pad3 b).data =
      (("SAL-" ++ t).data ++ ['-']) ++ (pad3 b).data := by simp
  rw [e1, e2, lexLt_append_same]
  exact pad3_lexLt ha hb

theorem natMax_le {a b c : Nat} (ha : a ≤ c) (hb : b ≤ c) : natMax a b ≤ c := by
  unfold natMax
  split <;> assumption

theorem foldl_natMax_le {ks : List Nat} : ∀ {m : Nat}, m ≤ 999 →
    (∀ k ∈ ks, k ≤ 999) → ks.foldl natMax m ≤ 999 := by
  induction ks with
  | nil => intro m hm _; exact hm
  | cons k ks ih =>
    intro m hm hks
    simp only [List.foldl_cons]
    exact ih (natMax_le hm (hks k (by simp)))
      (fun k' hk' => hks k' (List.mem_cons_of_mem k hk'))

theorem foldl_maxStep {t : String} {ks : List Nat} : ∀ {m : Nat}, m ≤ 999 →
    (∀ k ∈ ks, k ≤ 999) →
    List.foldl maxStep (some (fullNum t m)) (ks.map (fullNum t)) =
      some (fullNum t (ks.foldl natMax m)) := by
  induction ks with
  | nil => intro m _ _; rfl
  | cons k ks ih =>
    intro m hm hks
    have hk : k ≤ 999 := hks k (by simp)
    have hrest : ∀ k' ∈ ks, k' ≤ 999 :=
      fun k' hk' => hks k' (List.mem_cons_of_mem k hk')
    have hcomp := lexLt_fullNum (t := t) hm hk
    simp only [List.map_cons, List.foldl_cons, maxStep]
    by_cases hmk : m < k
    · rw [if_pos (hcomp.mpr hmk), ih hk hrest]
      have e : natMax m k = k := by unfold natMax; rw [if_pos hmk]
      rw [e]
    · have hfalse : lexLt (fullNum t m).data (fullNum t k).data = false :=
        Bool.eq_false_iff.mpr (fun h => hmk (hcomp.mp h))
      rw [if_neg (by simp [hfalse]), ih hm hrest]
      have e : natMax m k = m := by unfold natMax; rw [if_neg hmk]
      rw [e]

/-! ## The amended sale-number theorems -/

theorem generateSaleNumber_shape (t : String) (ns : List String) :
    ∃ r : String, generateSaleNumber t ns = "SAL-" ++ t ++ r := by
  unfold generateSaleNumber
  cases h : maxString (List.filter (fun s => (("SAL-" ++ t ++ "-").data.isPrefixOf s.data)) ns) with
  | none =>
    refine ⟨"-001", ?_⟩
    simp only [h]
  | some last =>
    refine ⟨"-" ++ pad3 (parseSeq last + 1), ?_⟩
    simp only [h]
    exact str_append_assoc _ _ _

/-- C4 (amended): the generated sale number is `SAL-<today>-<seq:03d>` with
`seq` one more than the sequence of the *string-wise greatest* same-day sale
number, and `seq = 1` when no same-day sale exists (the `ks = []` instance
below).  When every same-day sequence lies in 1..999 — so all are zero-padded
to the same width and string order agrees with numeric order — `seq` is one
more than the highest existing sequence, hence sequential creation issues
strictly increasing, gap-free numbers from 001 while a day has at most 999
sales.  Numbers generated for different (equal-length) dates never collide. -/
theorem c4_sale_number_generation :
    (∀ (today : String) (numbers : List String) (ks : List Nat),
      numbers.filter (fun s => (("SAL-" ++ today ++ "-").data.isPrefixOf s.data)) =
        ks.map (fullNum today) →
      (∀ k ∈ ks, 1 ≤ k ∧ k ≤ 999) →
      generateSaleNumber today numbers = fullNum today (ks.foldl natMax 0 + 1)) ∧
    (∀ (t1 t2 : String) (ns1 ns2 : List String),
      t1.data.length = t2.data.length → t1 ≠ t2 →
      generateSaleNumber t1 ns1 ≠ generateSaleNumber t2 ns2) := by
  constructor
  · intro today numbers ks hfilter hbound
    unfold generateSaleNumber
    simp only [hfilter]
    cases ks with
    | nil =>
      simp only [List.map_nil, List.foldl_nil]
      have hmax : maxString ([] : List String) = none := rfl
      rw [hmax]
      apply data_inj
      have e : (pad3 (0 + 1)).data = ['0', '0', '1'] := by decide
      simp only [fullNum, data_append, List.append_assoc, List.singleton_append, e]
    | cons k0 ks' =>
      have hk0 : k0 ≤ 999 := (hbound k0 (by simp)).2
      have hks' : ∀ k ∈ ks', k ≤ 999 :=
        fun k hk => (hbound k (List.mem_cons_of_mem k0 hk)).2
      have hM : ks'.foldl natMax k0 ≤ 999 := foldl_natMax_le hk0 hks'
      simp only [List.map_cons, maxString, List.foldl_cons]
      have e0 : maxStep none (fullNum today k0) = some (fullNum today k0) := rfl
      rw [e0, foldl_maxStep hk0 hks']
      simp only [parseSeq_fullNum hM]
      have e1 : natMax 0 k0 = k0 := by
        unfold natMax
        rw [if_pos (show 0 < k0 from (hbound k0 (by simp)).1)]
      rw [e1]
      rfl
  · intro t1 t2 ns1 ns2 hlen hne heq
    obtain ⟨r1, e1⟩ := generateSaleNumber_shape t1 ns1
    obtain ⟨r2, e2⟩ := generateSaleNumber_shape t2 ns2
    rw [e1, e2] at heq
    have hdata := congrArg String.data heq
    simp only [data_append, List.append_assoc] at hdata
    have hdata' := List.append_cancel_left hdata
    have := (List.append_inj hdata' hlen).1
    exact hne (data_inj this)

/-- C4 counterexample: with same-day numbers 999 and 1000 on file, the code
re-issues sequence 1000 (the string-wise maximum is `…-999`), not the
claimed highest-plus-one 1001 — the generated number even collides with an
existing one. -/
theorem c4_sale_number_cex :
    generateSaleNumber "20261012" saleNumCex ≠
      fullNum "20261012" (specHighestSeq "20261012" saleNumCex + 1) ∧
    generateSaleNumber "20261012" saleNumCex ∈ saleNumCex := by decide

/-- Witness for `c4_sale_number_generation` at a concrete two-sale store and
at an empty store (the fresh-day base case, sequence 001). -/
theorem c4_sale_number_generation_witness :
    generateSaleNumber "20261012" ["SAL-20261012-001", "SAL-20261012-002"] =
      fullNum "20261012" (([1, 2] : List Nat).foldl natMax 0 + 1) ∧
    generateSaleNumber "20261012" [] =
      fullNum "20261012" (([] : List Nat).foldl natMax 0 + 1) :=
  ⟨c4_sale_number_generation.1 "20261012" ["SAL-20261012-001", "SAL-20261012-002"]
      [1, 2] (by decide) (by decide),
    c4_sale_number_generation.1 "20261012" [] [] (by decide) (by decide)⟩

/-! ## Product-store lookup and update lemmas -/

theorem findP_mem : ∀ {ps : List Product} {pid : Nat} {p : Product},
    findP ps pid = some p → p ∈ ps := by
  intro ps
  induction ps with
  | nil => intro pid p h; cases h
  | cons q qs ih =>
    intro pid p h
    rw [findP] at h
    by_cases hq : q.id = pid
    · rw [if_pos hq] at h
      cases h
      exact List.mem_cons_self q qs
    · rw [if_neg hq] at h
      exact List.mem_cons_of_mem q (ih h)

theorem findP_id : ∀ {ps : List Product} {pid : Nat} {p : Product},
    findP ps pid = some p → p.id = pid := by
  intro ps
  induction ps with
  | nil => intro pid p h; cases h
  | cons q qs ih =>
    intro pid p h
    rw [findP] at h
    by_cases hq : q.id = pid
    · rw [if_pos hq] at h
      cases h
      exact hq
    · rw [if_neg hq] at h
      exact ih h

theorem findP_setP {f : Product → Product} {pid : Nat}
    (hf : ∀ p : Product, p.id = pid → (f p).id = p.id) :
    ∀ (ps : List Product) (q : Nat),
    findP (setP ps pid f) q =
      if q = pid then (findP ps pid).map f else findP ps q := by
  intro ps
  induction ps with
  | nil =>
    intro q
    simp [findP, setP]
  | cons p ps ih =>
    intro q
    by_cases hp : p.id = pid
    · simp only [setP, if_pos hp, findP, hf p hp, hp]
      by_cases hq : q = pid
      · subst hq
        simp [hp]
      · simp [Ne.symm hq, hq]
    · simp only [setP, if_neg hp, findP]
      by_cases hpq : p.id = q
      · have hq : ¬ q = pid := fun h => hp (hpq.trans h)
        simp [hpq, hq]
      · simp only [if_neg hpq]
        exact ih q

theorem setP_of_findP_none {ps : List Product} {pid : Nat} {f : Product → Product}
    (h : findP ps pid = none) : setP ps pid f = ps := by
  induction ps with
  | nil => rfl
  | cons p ps ih =>
    rw [findP] at h
    by_cases hp : p.id = pid
    · rw [if_pos hp] at h; cases h
    · rw [if_neg hp] at h
      rw [setP, if_neg hp, ih h]

theorem mem_setP {ps : List Product} {pid : Nat} {f : Product → Product} {p0 : Product}
    (h : findP ps pid = some p0) :
    ∀ q ∈ setP ps pid f, q ∈ ps ∨ q = f p0 := by
  induction ps with
  | nil => cases h
  | cons p ps ih =>
    rw [findP] at h
    intro q hq
    by_cases hp : p.id = pid
    · rw [if_pos hp] at h
      cases h
      rw [setP, if_pos hp] at hq
      rcases List.mem_cons.mp hq with h' | h'
      · exact Or.inr h'
      · exact Or.inl (List.mem_cons_of_mem _ h')
    · rw [if_neg hp] at h
      rw [setP, if_neg hp] at hq
      rcases List.mem_cons.mp hq with h' | h'
      · exact Or.inl (h' ▸ List.mem_cons_self _ _)
      · rcases ih h q h' with h'' | h''
        · exact Or.inl (List.mem_cons_of_mem _ h'')
        · exact Or.inr h''

/-! ## Sale-store lookup and update lemmas -/

theorem findSale_mem : ∀ {ss : List Sale} {sid : Nat} {s : Sale},
    findSale ss sid = some s → s ∈ ss := by
  intro ss
  induction ss with
  | nil => intro sid s h; cases h
  | cons t ts ih =>
    intro sid s h
    rw [findSale] at h
    by_cases ht : t.id = sid
    · rw [if_pos ht] at h
      cases h
      exact List.mem_cons_self _ _
    · rw [if_neg ht] at h
      exact List.mem_cons_of_mem _ (ih h)

theorem findSale_id : ∀ {ss : List Sale} {sid : Nat} {s : Sale},
    findSale ss sid = some s → s.id = sid := by
  intro ss
  induction ss with
  | nil => intro sid s h; cases h
  | cons t ts ih =>
    intro sid s h
    rw [findSale] at h
    by_cases ht : t.id = sid
    · rw [if_pos ht] at h
      cases h
      exact ht
    · rw [if_neg ht] at h
      exact ih h

theorem findSale_setSale : ∀ {ss : List Sale} {sid : Nat} {s : Sale} (s' : Sale),
    findSale ss sid = some s → s'.id = s.id →
    ∀ q, findSale (setSale ss sid s') q =
      if q = sid then some s' else findSale ss q := by
  intro ss
  induction ss with
  | nil => intro sid s s' h; cases h
  | cons t ts ih =>
    intro sid s s' h hid q
    rw [findSale] at h
    by_cases ht : t.id = sid
    · rw [if_pos ht] at h
      cases h
      rw [setSale, if_pos ht, findSale]
      by_cases hq : q = sid
      · rw [if_pos hq, if_pos (by rw [hid, ht, hq])]
      · rw [if_neg hq, if_neg (by rw [hid, ht]; exact fun h' => hq h'.symm),
          findSale, if_neg (by rw [ht]; exact fun h' => hq h'.symm)]
    · rw [if_neg ht] at h
      rw [setSale, if_neg ht, findSale, findSale]
      by_cases htq : t.id = q
      · have hq : ¬ q = sid := fun h' => ht (htq.trans h')
        rw [if_pos htq, if_pos htq, if_neg hq]
      · rw [if_neg htq, if_neg htq]
        exact ih s' h hid q

theorem findSale_eq_none {ss : List Sale} {sid : Nat}
    (h : sid ∉ ss.map Sale.id) : findSale ss sid = none := by
  induction ss with
  | nil => rfl
  | cons t ts ih =>
    simp only [List.map_cons, List.mem_cons] at h
    push_neg at h
    rw [findSale, if_neg (fun h' => h.1 h'.symm), ih h.2]

theorem findSale_removeSale {ss : List Sale} {sid : Nat}
    (hnd : (ss.map Sale.id).Nodup) : findSale (removeSale ss sid) sid = none := by
  induction ss with
  | nil => rfl
  | cons t ts ih =>
    simp only [List.map_cons, List.nodup_cons] at hnd
    rw [removeSale]
    by_cases ht : t.id = sid
    · rw [if_pos ht]
      exact findSale_eq_none (ht ▸ hnd.1)
    · rw [if_neg ht, findSale, if_neg ht]
      exact ih hnd.2

theorem findSale_append_last {ss : List Sale} {s : Sale}
    (h : ∀ t ∈ ss, t.id ≠ s.id) : findSale (ss ++ [s]) s.id = some s := by
  induction ss with
  | nil => rw [List.nil_append, findSale, if_pos rfl]
  | cons t ts ih =>
    rw [List.cons_append, findSale, if_neg (h t (List.mem_cons_self _ _))]
    exact ih (fun t' ht' => h t' (List.mem_cons_of_mem _ ht'))

theorem natMax_le_left (a b : Nat) : a ≤ natMax a b := by
  unfold natMax; split <;> omega

theorem natMax_le_right (a b : Nat) : b ≤ natMax a b := by
  unfold natMax; split <;> omega

theorem le_foldl_natMax : ∀ (l : List Nat) (a : Nat), a ≤ l.foldl natMax a := by
  intro l
  induction l with
  | nil => intro a; exact Nat.le_refl a
  | cons k l ih =>
    intro a
    exact Nat.le_trans (natMax_le_left a k) (ih (natMax a k))

theorem mem_le_foldl_natMax : ∀ {l : List Nat} {x : Nat} (a : Nat), x ∈ l →
    x ≤ l.foldl natMax a := by
  intro l
  induction l with
  | nil => intro x a h; cases h
  | cons k l ih =>
    intro x a h
    rcases List.mem_cons.mp h with rfl | h'
    · exact Nat.le_trans (natMax_le_right a x) (le_foldl_natMax l (natMax a x))
    · exact ih (natMax a k) h'

theorem sale_id_lt_nextSaleId {db : DB} {s : Sale} (hs : s ∈ db.sales) :
    s.id < nextSaleId db := by
  have : s.id ∈ db.sales.map Sale.id := List.mem_map_of_mem Sale.id hs
  have := mem_le_foldl_natMax 0 this
  unfold nextSaleId
  omega

/-! ## The stock-restoration loop of `CRUDSale.cancel` -/

theorem restoredQty_nil (pid : Nat) : restoredQty [] pid = 0 := rfl

theorem restoredQty_cons_eq {it : SaleItem} {rest : List SaleItem} {pid : Nat}
    (h : it.product_id = pid) :
    restoredQty (it :: rest) pid = it.quantity + restoredQty rest pid := by
  simp [restoredQty, h]

theorem restoredQty_cons_ne {it : SaleItem} {rest : List SaleItem} {pid : Nat}
    (h : ¬ it.product_id = pid) :
    restoredQty (it :: rest) pid = restoredQty rest pid := by
  simp [restoredQty, h]

theorem findP_restoreItems : ∀ (items : List SaleItem) (ps : List Product) (pid : Nat),
    findP (restoreItems ps items) pid =
      (findP ps pid).map
        (fun p => { p with current_stock := p.current_stock + restoredQty items pid }) := by
  intro items
  induction items with
  | nil =>
    intro ps pid
    rw [restoreItems]
    cases h : findP ps pid <;> simp [restoredQty_nil, h]
  | cons it rest ih =>
    intro ps pid
    rw [restoreItems]
    cases h0 : findP ps it.product_id with
    | none =>
      rw [ih]
      by_cases hpid : it.product_id = pid
      · rw [← hpid, h0]
        rfl
      · rw [restoredQty_cons_ne hpid]
    | some p0 =>
      rw [ih, findP_setP
        (f := fun q => { q with current_stock := q.current_stock + it.quantity })
        (fun p _ => rfl)]
      by_cases hpid : pid = it.product_id
      · rw [if_pos hpid, hpid, h0]
        rw [restoredQty_cons_eq rfl]
        simp [Int.add_assoc]
      · rw [if_neg hpid, restoredQty_cons_ne (fun h' => hpid h'.symm)]

/-! ## The item loop of `CRUDSale.create` -/

theorem mkSaleItem_formulas (p : Product) (ic : SaleItemCreate) :
    itemFormulasOk (mkSaleItem p ic) :=
  ⟨rfl, rfl, rfl, rfl⟩

theorem processItems_ok : ∀ (l : List SaleItemCreate) (ps : List Product)
    (acc : List SaleItem) (ta tt td : ℚ) {ps' : List Product} {its : List SaleItem}
    {ta' tt' td' : ℚ},
    processItems ps acc ta tt td l = .ok (ps', its, ta', tt', td') →
    ∃ new : List SaleItem, its = acc ++ new ∧ (∀ it ∈ new, itemFormulasOk it) ∧
      ta' = ta + (new.map SaleItem.subtotal).sum ∧
      tt' = tt + (new.map SaleItem.tax_amount).sum ∧
      td' = td + (new.map SaleItem.discount_amount).sum := by
  intro l
  induction l with
  | nil =>
    intro ps acc ta tt td ps' its ta' tt' td' h
    rw [processItems] at h
    injection h with h
    injection h with h1 h
    injection h with h2 h
    injection h with h3 h
    injection h with h4 h5
    exact ⟨[], by simp [h2.symm], by simp, by simp [h3.symm], by simp [h4.symm],
      by simp [h5.symm]⟩
  | cons ic rest ih =>
    intro ps acc ta tt td ps' its ta' tt' td' h
    rw [processItems] at h
    cases hfind : findP ps ic.product_id with
    | none => rw [hfind] at h; cases h
    | some p =>
      rw [hfind] at h
      dsimp only at h
      by_cases hs : p.current_stock < ic.quantity
      · rw [if_pos hs] at h; cases h
      · rw [if_neg hs] at h
        obtain ⟨new, hits, hform, hta, htt, htd⟩ := ih _ _ _ _ _ h
        refine ⟨mkSaleItem p ic :: new, ?_, ?_, ?_, ?_, ?_⟩
        · rw [hits, List.append_assoc]
          rfl
        · intro it hit
          rcases List.mem_cons.mp hit with rfl | hit'
          · exact mkSaleItem_formulas p ic
          · exact hform it hit'
        · rw [hta]; simp [mkSaleItem]; ring
        · rw [htt]; simp [mkSaleItem]; ring
        · rw [htd]; simp [mkSaleItem]; ring

theorem storeLe_refl (ps : List Product) : storeLe ps ps := by
  intro pid
  cases findP ps pid <;> simp [storeLe]

theorem itemBad_mono {ps qs : List Product} {ic : SaleItemCreate}
    (h : storeLe ps qs) (hb : itemBad qs ic = true) : itemBad ps ic = true := by
  have hpid := h ic.product_id
  unfold itemBad at hb ⊢
  cases h1 : findP ps ic.product_id with
  | none => rfl
  | some p =>
    cases h2 : findP qs ic.product_id with
    | none => rw [h1, h2] at hpid; exact absurd hpid (by simp)
    | some q =>
      rw [h1, h2] at hpid
      rw [h2] at hb
      simp only [decide_eq_true_eq] at hb ⊢
      omega

theorem storeLe_decrement {ps : List Product} {pid : Nat} {q : Int} (hq : 0 ≤ q) :
    storeLe (setP ps pid (fun r => { r with current_stock := r.current_stock - q })) ps := by
  intro pid'
  rw [findP_setP
    (f := fun r => { r with current_stock := r.current_stock - q }) (fun p _ => rfl)]
  by_cases hp : pid' = pid
  · rw [if_pos hp, hp]
    cases findP ps pid with
    | none => simp
    | some p => simp; omega
  · rw [if_neg hp]
    cases findP ps pid' with
    | none => simp
    | some p => simp

theorem processItems_error : ∀ (l : List SaleItemCreate) (ps : List Product)
    (acc : List SaleItem) (ta tt td : ℚ),
    (∀ ic ∈ l, 0 < ic.quantity) →
    (∃ ic ∈ l, itemBad ps ic = true) →
    ∃ msg, processItems ps acc ta tt td l = .error msg ∧ msgNamesOffender msg := by
  intro l
  induction l with
  | nil =>
    intro ps acc ta tt td _ hbad
    obtain ⟨ic, hic, _⟩ := hbad
    cases hic
  | cons ic rest ih =>
    intro ps acc ta tt td hq hbad
    rw [processItems]
    cases hfind : findP ps ic.product_id with
    | none =>
      exact ⟨productNotFoundMsg ic.product_id, rfl, Or.inl ⟨ic.product_id, rfl⟩⟩
    | some p =>
      dsimp only
      by_cases hs : p.current_stock < ic.quantity
      · rw [if_pos hs]
        exact ⟨insufficientStockMsg p.name p.current_stock, rfl,
          Or.inr ⟨p.name, p.current_stock, rfl⟩⟩
      · rw [if_neg hs]
        obtain ⟨ic0, hic0, hbad0⟩ := hbad
        have hic0' : ic0 ∈ rest := by
          rcases List.mem_cons.mp hic0 with rfl | h'
          · exfalso
            unfold itemBad at hbad0
            rw [hfind] at hbad0
            simp only [decide_eq_true_eq] at hbad0
            exact hs hbad0
          · exact h'
        have hle : storeLe
            (setP ps ic.product_id
              (fun r => { r with current_stock := r.current_stock - ic.quantity })) ps :=
          storeLe_decrement (Int.le_of_lt (hq ic (List.mem_cons_self _ _)))
        exact ih _ _ _ _ _
          (fun ic' h' => hq ic' (List.mem_cons_of_mem _ h'))
          ⟨ic0, hic0', itemBad_mono hle hbad0⟩

/-! ## Non-negative stock preservation -/

theorem stocksNonneg_setP {ps : List Product} {pid : Nat} {f : Product → Product}
    {p0 : Product} (hfind : findP ps pid = some p0) (hps : stocksNonneg ps)
    (hf0 : 0 ≤ (f p0).current_stock) : stocksNonneg (setP ps pid f) := by
  intro q hq
  rcases mem_setP hfind q hq with h | h
  · exact hps q h
  · rw [h]; exact hf0

theorem processItems_nonneg : ∀ (l : List SaleItemCreate) (ps : List Product)
    (acc : List SaleItem) (ta tt td : ℚ) {ps' : List Product} {its : List SaleItem}
    {ta' tt' td' : ℚ},
    processItems ps acc ta tt td l = .ok (ps', its, ta', tt', td') →
    stocksNonneg ps → stocksNonneg ps' := by
  intro l
  induction l with
  | nil =>
    intro ps acc ta tt td ps' its ta' tt' td' h hps
    rw [processItems] at h
    injection h with h
    injection h with h1 h
    exact h1 ▸ hps
  | cons ic rest ih =>
    intro ps acc ta tt td ps' its ta' tt' td' h hps
    rw [processItems] at h
    cases hfind : findP ps ic.product_id with
    | none => rw [hfind] at h; cases h
    | some p =>
      rw [hfind] at h
      dsimp only at h
      by_cases hs : p.current_stock < ic.quantity
      · rw [if_pos hs] at h; cases h
      · rw [if_neg hs] at h
        exact ih _ _ _ _ _ h
          (stocksNonneg_setP hfind hps (by dsimp; omega))

theorem restoreItems_nonneg : ∀ (items : List SaleItem) (ps : List Product),
    (∀ it ∈ items, 0 ≤ it.quantity) → stocksNonneg ps →
    stocksNonneg (restoreItems ps items) := by
  intro items
  induction items with
  | nil => intro ps _ hps; exact hps
  | cons it rest ih =>
    intro ps hq hps
    rw [restoreItems]
    cases hfind : findP ps it.product_id with
    | none => exact ih ps (fun i hi => hq i (List.mem_cons_of_mem _ hi)) hps
    | some p0 =>
      refine ih _ (fun i hi => hq i (List.mem_cons_of_mem _ hi)) ?_
      refine stocksNonneg_setP hfind hps ?_
      have h1 := hps p0 (findP_mem hfind)
      have h2 := hq it (List.mem_cons_self _ _)
      dsimp
      omega

theorem updateStock_nonneg (ps : List Product) (pid : Nat) (q : Int) (now : Nat)
    (hps : stocksNonneg ps) : stocksNonneg (updateStock ps pid q now).2 := by
  rw [updateStock]
  cases hfind : findP ps pid with
  | none => exact hps
  | some p =>
    dsimp only
    by_cases hneg : p.current_stock + q < 0
    · rw [if_pos hneg]; exact hps
    · rw [if_neg hneg]
      exact stocksNonneg_setP hfind hps (by dsimp [stockAdjusted]; omega)

theorem bulkUpdateStock_nonneg : ∀ (updates : List (Nat × Int)) (ps : List Product)
    (now : Nat), stocksNonneg ps → stocksNonneg (bulkUpdateStock ps updates now).2 := by
  intro updates
  induction updates with
  | nil => intro ps now hps; exact hps
  | cons e rest ih =>
    intro ps now hps
    obtain ⟨pid, q⟩ := e
    rw [bulkUpdateStock]
    cases hfind : findP ps pid with
    | none => exact ih ps now hps
    | some p =>
      dsimp only
      by_cases hge : p.current_stock + q ≥ 0
      · rw [if_pos hge]
        exact ih _ now (stocksNonneg_setP hfind hps (by dsimp [stockAdjusted]; omega))
      · rw [if_neg hge]
        exact ih ps now hps

/-! # Claim theorems -/

/-- C1: if any item of a sale-creation request (whose quantities passed the
`quantity > 0` schema validation) references a missing product or exceeds
its current stock, `CRUDSale.create` returns no sale together with a message
naming the offending product or constraint, and the committed state is
unchanged — no stock mutation, no sale row, no line items, even when
earlier items of the list had already passed their checks. -/
theorem c1_create_rollback (today : String) (db : DB) (sc : SaleCreate)
    (hq : ∀ ic ∈ sc.items, 0 < ic.quantity)
    (hbad : ∃ ic ∈ sc.items, itemBad db.products ic = true) :
    (createSale today db sc).1 = none ∧
    (createSale today db sc).2.2 = db ∧
    msgNamesOffender (createSale today db sc).2.1 := by
  obtain ⟨msg, herr, hshape⟩ :=
    processItems_error sc.items db.products [] 0 0 0 hq hbad
  rw [createSale, herr]
  exact ⟨rfl, rfl, hshape⟩

/-- C2: a successfully created sale satisfies the four per-item decimal
formulas (subtotal, discount, tax, total), its three totals are the sums of
the corresponding item amounts, and
`grand_total = total_amount + tax_amount - discount_amount`, all in exact
decimal arithmetic. -/
theorem c2_sale_totals (today : String) (db : DB) (sc : SaleCreate)
    (sale : Sale) (msg : String) (db' : DB)
    (_hne : sc.items ≠ [])
    (h : createSale today db sc = (some sale, msg, db')) :
    (∀ it ∈ sale.items, itemFormulasOk it) ∧
    sale.total_amount = (sale.items.map SaleItem.subtotal).sum ∧
    sale.tax_amount = (sale.items.map SaleItem.tax_amount).sum ∧
    sale.discount_amount = (sale.items.map SaleItem.discount_amount).sum ∧
    sale.grand_total = sale.total_amount + sale.tax_amount - sale.discount_amount := by
  rw [createSale] at h
  cases hp : processItems db.products [] 0 0 0 sc.items with
  | error msg' => rw [hp] at h; cases h
  | ok v =>
    obtain ⟨ps', its, ta, tt, td⟩ := v
    rw [hp] at h
    dsimp only at h
    obtain ⟨new, hits, hform, hta, htt, htd⟩ :=
      processItems_ok sc.items db.products [] 0 0 0 hp
    rw [Prod.mk.injEq, Prod.mk.injEq] at h
    obtain ⟨h1, h2, h3⟩ := h
    injection h1 with h1
    subst h1
    rw [List.nil_append] at hits
    subst hits
    refine ⟨hform, ?_, ?_, ?_, ?_⟩ <;> simp [hta, htt, htd]

/-- C5: starting from a committed state whose product stocks are all
non-negative, each of sale creation, sale cancellation (stored line-item
quantities being positive by schema), single stock adjustment and bulk stock
update leaves every product's stock non-negative; would-go-negative attempts
are rejected without mutating the product. -/
theorem c5_nonneg_invariant (db : DB) (today : String) (sc : SaleCreate)
    (sid : Nat) (pid : Nat) (q : Int) (now : Nat) (updates : List (Nat × Int))
    (h : stocksNonneg db.products) :
    stocksNonneg (createSale today db sc).2.2.products ∧
    (saleQtysNonneg db.sales → stocksNonneg (cancelSale db sid).2.2.products) ∧
    stocksNonneg (updateStock db.products pid q now).2 ∧
    stocksNonneg (bulkUpdateStock db.products updates now).2 := by
  refine ⟨?_, ?_, updateStock_nonneg _ _ _ _ h, bulkUpdateStock_nonneg _ _ _ h⟩
  · rw [createSale]
    cases hp : processItems db.products [] 0 0 0 sc.items with
    | error msg => exact h
    | ok v =>
      obtain ⟨ps', its, ta, tt, td⟩ := v
      exact processItems_nonneg sc.items db.products [] 0 0 0 hp h
  · intro hqty
    rw [cancelSale]
    cases hfind : findSale db.sales sid with
    | none => exact h
    | some s =>
      dsimp only
      by_cases hst : s.status = "cancelled"
      · rw [if_pos hst]; exact h
      · rw [if_neg hst]
        exact restoreItems_nonneg s.items db.products
          (hqty s (findSale_mem hfind)) h

/-- C7: for an existing product and a signed delta, `update_stock` sets the
stock to `old + delta` when that is non-negative, stamping the restock
timestamp exactly when the delta is positive; when `old + delta` is negative
the operation is rejected with the store (stock and timestamp) untouched. -/
theorem c7_update_stock (ps : List Product) (pid : Nat) (q : Int) (now : Nat)
    (p : Product) (hfind : findP ps pid = some p) :
    (0 ≤ p.current_stock + q →
      (updateStock ps pid q now).1 = some (stockAdjusted p q now) ∧
      findP (updateStock ps pid q now).2 pid = some (stockAdjusted p q now) ∧
      (stockAdjusted p q now).current_stock = p.current_stock + q ∧
      (q > 0 → (stockAdjusted p q now).last_restocked = some now) ∧
      (¬ q > 0 → (stockAdjusted p q now).last_restocked = p.last_restocked)) ∧
    (p.current_stock + q < 0 → updateStock ps pid q now = (none, ps)) := by
  constructor
  · intro h0
    rw [updateStock, hfind]
    dsimp only
    rw [if_neg (by omega)]
    refine ⟨rfl, ?_, rfl, ?_, ?_⟩
    · rw [findP_setP (f := fun _ => stockAdjusted p q now)
        (fun x hx => (findP_id hfind).trans hx.symm), if_pos rfl, hfind]
      rfl
    · intro hq
      rw [stockAdjusted]
      dsimp
      rw [if_pos hq]
    · intro hq
      rw [stockAdjusted]
      dsimp
      rw [if_neg hq]
  · intro h1
    rw [updateStock, hfind]
    dsimp only
    rw [if_pos h1]

/-- C8: a bulk stock update treats each (distinct-keyed) entry
independently — the result map holds `true` for an entry exactly when its
product exists and its pre-operation stock plus the delta is non-negative,
in which case the product's stock becomes `old + delta` (restock stamp iff
the delta is positive); a failing entry leaves its product unchanged, and
products not mentioned are untouched.  One entry's failure never blocks
another entry's update. -/
theorem c8_bulk_update_stock (ps : List Product) (updates : List (Nat × Int))
    (now : Nat) (hnd : (updates.map Prod.fst).Nodup) :
    (bulkUpdateStock ps updates now).1 = updates.map (fun e => (e.1, bulkOk ps e)) ∧
    (∀ pid q, (pid, q) ∈ updates →
      findP (bulkUpdateStock ps updates now).2 pid =
        (findP ps pid).map (bulkExpected now q)) ∧
    (∀ pid, pid ∉ updates.map Prod.fst →
      findP (bulkUpdateStock ps updates now).2 pid = findP ps pid) := by
  induction updates generalizing ps with
  | nil =>
    refine ⟨rfl, ?_, ?_⟩
    · intro pid q hmem
      cases hmem
    · intro pid _
      rfl
  | cons e rest ih =>
    obtain ⟨pid0, q0⟩ := e
    simp only [List.map_cons, List.nodup_cons] at hnd
    rw [bulkUpdateStock]
    cases hfind : findP ps pid0 with
    | none =>
      dsimp only
      obtain ⟨ih1, ih2, ih3⟩ := ih ps hnd.2
      refine ⟨?_, ?_, ?_⟩
      · rw [ih1, List.map_cons]
        simp [bulkOk, hfind]
      · intro pid q hmem
        rcases List.mem_cons.mp hmem with heq | hmem'
        · injection heq with e1 e2
          subst e1; subst e2
          rw [ih3 pid hnd.1, hfind]
          rfl
        · exact ih2 pid q hmem'
      · intro pid hpid
        simp only [List.map_cons, List.mem_cons] at hpid
        push_neg at hpid
        exact ih3 pid hpid.2
    | some p =>
      dsimp only
      by_cases hge : p.current_stock + q0 ≥ 0
      · rw [if_pos hge]
        dsimp only
        obtain ⟨ih1, ih2, ih3⟩ := ih
          (setP ps pid0 (fun _ => stockAdjusted p q0 now)) hnd.2
        have hother : ∀ x, x ≠ pid0 →
            findP (setP ps pid0 (fun _ => stockAdjusted p q0 now)) x = findP ps x := by
          intro x hx
          rw [findP_setP (f := fun _ => stockAdjusted p q0 now)
            (fun y hy => (findP_id hfind).trans hy.symm), if_neg hx]
        have hself :
            findP (setP ps pid0 (fun _ => stockAdjusted p q0 now)) pid0 =
              some (stockAdjusted p q0 now) := by
          rw [findP_setP (f := fun _ => stockAdjusted p q0 now)
            (fun y hy => (findP_id hfind).trans hy.symm), if_pos rfl, hfind]
          rfl
        refine ⟨?_, ?_, ?_⟩
        · rw [ih1, List.map_cons]
          refine congrArg₂ _ (by simp [bulkOk, hfind, hge]) ?_
          refine List.map_congr_left (fun e he => ?_)
          have hne : e.1 ≠ pid0 := by
            intro hx
            exact hnd.1 (hx ▸ List.mem_map_of_mem Prod.fst he)
          simp only [bulkOk, hother e.1 hne]
        · intro pid q hmem
          rcases List.mem_cons.mp hmem with heq | hmem'
          · injection heq with e1 e2
            subst e1; subst e2
            rw [ih3 pid hnd.1, hself, hfind]
            dsimp only [Option.map, bulkExpected]
            rw [if_pos hge]
          · have hne : pid ≠ pid0 := by
              intro hx
              exact hnd.1 (hx ▸ List.mem_map_of_mem Prod.fst hmem')
            rw [ih2 pid q hmem', hother pid hne]
        · intro pid hpid
          simp only [List.map_cons, List.mem_cons] at hpid
          push_neg at hpid
          rw [ih3 pid hpid.2, hother pid hpid.1]
      · rw [if_neg hge]
        dsimp only
        obtain ⟨ih1, ih2, ih3⟩ := ih ps hnd.2
        refine ⟨?_, ?_, ?_⟩
        · rw [ih1, List.map_cons]
          simp [bulkOk, hfind, hge]
        · intro pid q hmem
          rcases List.mem_cons.mp hmem with heq | hmem'
          · injection heq with e1 e2
            subst e1; subst e2
            rw [ih3 pid hnd.1, hfind]
            dsimp only [Option.map, bulkExpected]
            rw [if_neg hge]
          · exact ih2 pid q hmem'
        · intro pid hpid
          simp only [List.map_cons, List.mem_cons] at hpid
          push_neg at hpid
          exact ih3 pid hpid.2

/-- C6 (amended): on product creation the margin is
`(selling − cost) / cost × 100` when the cost price is positive and null
when it is zero; on an update that touches a price field the margin is
recomputed by the same formula when the effective cost price is positive,
but when the effective cost price is zero the previous margin is carried
over unchanged rather than being set to null. -/
theorem c6_margin (pid now : Nat) (pc : ProductCreate) (p : Product)
    (u : ProductUpdate) :
    (pc.cost_price > 0 →
      (productCreate pid now pc).margin =
        some ((pc.selling_price - pc.cost_price) / pc.cost_price * 100)) ∧
    (pc.cost_price = 0 → (productCreate pid now pc).margin = none) ∧
    ((u.cost_price.isSome || u.selling_price.isSome) = true →
      (0 < u.cost_price.getD p.cost_price →
        (productUpdate p u).margin =
          some ((u.selling_price.getD p.selling_price - u.cost_price.getD p.cost_price) /
            u.cost_price.getD p.cost_price * 100)) ∧
      (u.cost_price.getD p.cost_price = 0 →
        (productUpdate p u).margin = p.margin)) := by
  refine ⟨?_, ?_, ?_⟩
  · intro h
    rw [productCreate]
    dsimp only
    rw [if_pos h]
  · intro h
    rw [productCreate]
    dsimp only
    rw [if_neg (by rw [h]; exact lt_irrefl 0)]
  · intro hsome
    constructor
    · intro hc
      rw [productUpdate, if_pos hsome]
      dsimp only
      rw [if_pos hc]
    · intro hc
      rw [productUpdate, if_pos hsome]
      dsimp only
      rw [if_neg (by rw [hc]; exact lt_irrefl 0)]

/-- C3: cancelling a missing sale fails with "not found"; cancelling an
already-cancelled sale fails with "already cancelled"; cancelling any other
existing sale succeeds, adds each line item's quantity back to its product's
stock when the product row exists (missing rows stay missing), sets the
status to `cancelled` and the payment status to `refunded` iff it was
`paid` (else `pending`), and a second cancellation of the same sale fails
rather than being a no-op. -/
theorem c3_cancel_sale (db : DB) (sid : Nat) :
    (findSale db.sales sid = none →
      cancelSale db sid = (false, "Sale not found", db)) ∧
    (∀ s, findSale db.sales sid = some s → s.status = "cancelled" →
      cancelSale db sid = (false, "Sale is already cancelled", db)) ∧
    (∀ s, findSale db.sales sid = some s → s.status ≠ "cancelled" →
      (cancelSale db sid).1 = true ∧
      (∀ pid p, findP db.products pid = some p →
        findP (cancelSale db sid).2.2.products pid =
          some { p with current_stock := p.current_stock + restoredQty s.items pid }) ∧
      (∀ pid, findP db.products pid = none →
        findP (cancelSale db sid).2.2.products pid = none) ∧
      findSale (cancelSale db sid).2.2.sales sid = some { s with
        status := "cancelled"
        payment_status := if s.payment_status = "paid" then "refunded" else "pending" } ∧
      (cancelSale (cancelSale db sid).2.2 sid).1 = false) := by
  refine ⟨?_, ?_, ?_⟩
  · intro h
    rw [cancelSale, h]
  · intro s hfind hst
    rw [cancelSale, hfind]
    dsimp only
    rw [if_pos hst]
  · intro s hfind hst
    rw [cancelSale, hfind]
    dsimp only
    rw [if_neg hst]
    refine ⟨rfl, ?_, ?_, ?_, ?_⟩
    · intro pid p hp
      dsimp only
      rw [findP_restoreItems, hp]
      rfl
    · intro pid hp
      dsimp only
      rw [findP_restoreItems, hp]
      rfl
    · dsimp only
      rw [findSale_setSale { s with
          status := "cancelled"
          payment_status := if s.payment_status = "paid" then "refunded" else "pending" }
        hfind rfl, if_pos rfl]
    · dsimp only
      rw [cancelSale]
      dsimp only
      rw [findSale_setSale { s with
          status := "cancelled"
          payment_status := if s.payment_status = "paid" then "refunded" else "pending" }
        hfind rfl, if_pos rfl]
      dsimp only
      rw [if_pos rfl]

/-- C9: a successful cancellation leaves the sale's four monetary totals,
its identity fields and its line items (with all their amounts and product
snapshots) untouched — only `status` and `payment_status` change. -/
theorem c9_cancel_frame (db : DB) (sid : Nat) (s : Sale)
    (hfind : findSale db.sales sid = some s) (hst : s.status ≠ "cancelled") :
    ∃ s', findSale (cancelSale db sid).2.2.sales sid = some s' ∧
      s'.total_amount = s.total_amount ∧ s'.tax_amount = s.tax_amount ∧
      s'.discount_amount = s.discount_amount ∧ s'.grand_total = s.grand_total ∧
      s'.items = s.items ∧ s'.id = s.id ∧ s'.sale_number = s.sale_number ∧
      s'.customer_name = s.customer_name ∧ s'.payment_method = s.payment_method ∧
      s'.status = "cancelled" ∧
      s'.payment_status =
        (if s.payment_status = "paid" then "refunded" else "pending") := by
  rw [cancelSale, hfind]
  dsimp only
  rw [if_neg hst]
  dsimp only
  refine ⟨{ s with
      status := "cancelled"
      payment_status := if s.payment_status = "paid" then "refunded" else "pending" },
    ?_, rfl, rfl, rfl, rfl, rfl, rfl, rfl, rfl, rfl, rfl, rfl⟩
  rw [findSale_setSale { s with
      status := "cancelled"
      payment_status := if s.payment_status = "paid" then "refunded" else "pending" }
    hfind rfl, if_pos rfl]

theorem createSale_ok {today : String} {db : DB} {sc : SaleCreate} {sale : Sale}
    {msg : String} {db2 : DB} (h : createSale today db sc = (some sale, msg, db2)) :
    db2.sales = db.sales ++ [sale] ∧ sale.id = nextSaleId db := by
  rw [createSale] at h
  cases hp : processItems db.products [] 0 0 0 sc.items with
  | error m => rw [hp] at h; cases h
  | ok v =>
    obtain ⟨ps', its, ta, tt, td⟩ := v
    rw [hp] at h
    dsimp only at h
    rw [Prod.mk.injEq, Prod.mk.injEq] at h
    obtain ⟨h1, _hmsg, h3⟩ := h
    injection h1 with h1
    subst h3
    refine ⟨?_, ?_⟩
    · dsimp only
      rw [h1]
    · rw [← h1]

/-- C10 (implicit): the sale-delete operation succeeds exactly when the sale
exists with status `draft`; it removes the sale row (and, by cascade, its
line items) while leaving every product row — hence every stock level —
untouched, so the stock decremented when the draft sale was created is not
restored, unlike cancellation. -/
theorem c10_delete_draft (db : DB) (sid : Nat) :
    ((deleteSale db sid).1 = true ↔
      ∃ s, findSale db.sales sid = some s ∧ s.status = "draft") ∧
    (deleteSale db sid).2.products = db.products ∧
    ((db.sales.map Sale.id).Nodup → (deleteSale db sid).1 = true →
      findSale (deleteSale db sid).2.sales sid = none) ∧
    (∀ today sc sale msg db2,
      createSale today db sc = (some sale, msg, db2) → sale.status = "draft" →
      (deleteSale db2 sale.id).1 = true ∧
      (deleteSale db2 sale.id).2.products = db2.products) := by
  refine ⟨?_, ?_, ?_, ?_⟩
  · cases hfind : findSale db.sales sid with
    | none =>
      rw [deleteSale, hfind]
      simp
    | some s =>
      rw [deleteSale, hfind]
      dsimp only
      by_cases hst : s.status ≠ "draft"
      · rw [if_pos hst]
        constructor
        · intro h; cases h
        · rintro ⟨s', hs', hd⟩
          injection hs' with e
          subst e
          exact absurd hd hst
      · rw [if_neg hst]
        push_neg at hst
        exact ⟨fun _ => ⟨s, rfl, hst⟩, fun _ => rfl⟩
  · rw [deleteSale]
    cases hfind : findSale db.sales sid with
    | none => rfl
    | some s =>
      dsimp only
      by_cases hst : s.status ≠ "draft"
      · rw [if_pos hst]
      · rw [if_neg hst]
  · intro hnd hsucc
    rw [deleteSale] at hsucc ⊢
    cases hfind : findSale db.sales sid with
    | none =>
      rw [hfind] at hsucc
      dsimp only at hsucc
      cases hsucc
    | some s =>
      rw [hfind] at hsucc
      dsimp only at hsucc ⊢
      by_cases hst : s.status ≠ "draft"
      · rw [if_pos hst] at hsucc; cases hsucc
      · rw [if_neg hst]
        dsimp only
        exact findSale_removeSale hnd
  · intro today sc sale msg db2 hcreate hdraft
    obtain ⟨hsales, hid⟩ := createSale_ok hcreate
    have hne2 : ∀ t ∈ db.sales, t.id ≠ sale.id := by
      intro t ht
      rw [hid]
      exact Nat.ne_of_lt (sale_id_lt_nextSaleId ht)
    have hfound : findSale db2.sales sale.id = some sale := by
      rw [hsales]
      exact findSale_append_last hne2
    constructor
    · rw [deleteSale, hfound]
      dsimp only
      rw [if_neg (fun hcon => hcon hdraft)]
    · rw [deleteSale, hfound]
      dsimp only
      rw [if_neg (fun hcon => hcon hdraft)]


/-! # Witnesses and counterexamples

The `Rat` arithmetic operations are `@[irreducible]` in the library, which
blocks `decide`'s evaluation of the concrete stores; their bodies are
restored to normal visibility here so the witnesses can be checked by
evaluation. -/

set_option allowUnsafeReducibility true in
attribute [semireducible] Rat.add Rat.sub Rat.mul Rat.inv Rat.div Rat.ofScientific

/-- Witness for `c1_create_rollback`: a two-item request whose first item
passes and whose second demands 100 of a product holding 50. -/
theorem c1_create_rollback_witness :
    (createSale "20261012" wDB wBadSaleCreate).1 = none ∧
    (createSale "20261012" wDB wBadSaleCreate).2.2 = wDB ∧
    msgNamesOffender (createSale "20261012" wDB wBadSaleCreate).2.1 :=
  c1_create_rollback "20261012" wDB wBadSaleCreate (by decide) (by decide)

/-- Witness for `c2_sale_totals` at the spec's §8 scenario (quantity 10,
price 75.00, tax 18%, discount 5%). -/
theorem c2_sale_totals_witness :
    (∀ it ∈ wSale.items, itemFormulasOk it) ∧
    wSale.total_amount = (wSale.items.map SaleItem.subtotal).sum ∧
    wSale.tax_amount = (wSale.items.map SaleItem.tax_amount).sum ∧
    wSale.discount_amount = (wSale.items.map SaleItem.discount_amount).sum ∧
    wSale.grand_total = wSale.total_amount + wSale.tax_amount - wSale.discount_amount :=
  c2_sale_totals "20261012" wDB wSaleCreate wSale "Sale created successfully" wDB2
    (by decide) (by decide)

/-- Witness for `c3_cancel_sale`: cancelling the §8 sale succeeds, restores
the product's stock by the sold quantity, and a second cancellation fails. -/
theorem c3_cancel_sale_witness :
    (cancelSale wDB2 1).1 = true ∧
    findP (cancelSale wDB2 1).2.2.products 1 =
      some { wSoldProduct with
        current_stock := wSoldProduct.current_stock + restoredQty wSale.items 1 } ∧
    (cancelSale (cancelSale wDB2 1).2.2 1).1 = false := by
  have h := (c3_cancel_sale wDB2 1).2.2 wSale (by decide) (by decide)
  exact ⟨h.1, h.2.1 1 wSoldProduct (by decide), h.2.2.2.2⟩

/-- Witness for `c5_nonneg_invariant` on the §8 store. -/
theorem c5_nonneg_invariant_witness :
    stocksNonneg (createSale "20261012" wDB2 wSaleCreate).2.2.products ∧
    (saleQtysNonneg wDB2.sales → stocksNonneg (cancelSale wDB2 1).2.2.products) ∧
    stocksNonneg (updateStock wDB2.products 1 (-60) 99).2 ∧
    stocksNonneg (bulkUpdateStock wDB2.products wBulkUpdates 99).2 :=
  c5_nonneg_invariant wDB2 "20261012" wSaleCreate 1 1 (-60) 99 wBulkUpdates
    (by unfold stocksNonneg; decide)

/-- Witness for `c6_margin`: cost 100 / selling 150 gives margin 50.0, and
an update moving the cost to 80 recomputes the margin to 87.5. -/
theorem c6_margin_witness :
    (productCreate 2 0 pc100).margin = some 50 ∧
    (productUpdate (productCreate 2 0 pc100) margin80Update).margin = some 87.5 := by
  constructor
  · exact ((c6_margin 2 0 pc100 (productCreate 2 0 pc100) margin80Update).1
      (by decide)).trans (by decide)
  · exact (((c6_margin 2 0 pc100 (productCreate 2 0 pc100) margin80Update).2.2
      (by decide)).1 (by decide)).trans (by decide)

/-- C6 counterexample: updating the §8 product's cost price to 0 leaves the
stored margin at 50 instead of the claimed null. -/
theorem c6_margin_cex :
    marginZeroUpdate.cost_price.isSome = true ∧
    (productUpdate (productCreate 2 0 pc100) marginZeroUpdate).cost_price = 0 ∧
    (productUpdate (productCreate 2 0 pc100) marginZeroUpdate).margin ≠ none := by
  decide

/-- Witness for `c7_update_stock`: +5 on a stock of 50 succeeds with a
restock stamp; −60 is rejected leaving the store untouched. -/
theorem c7_update_stock_witness :
    (updateStock [wProduct] 1 5 99).1 = some (stockAdjusted wProduct 5 99) ∧
    updateStock [wProduct] 1 (-60) 99 = (none, [wProduct]) :=
  ⟨((c7_update_stock [wProduct] 1 5 99 wProduct (by decide)).1 (by decide)).1,
    (c7_update_stock [wProduct] 1 (-60) 99 wProduct (by decide)).2 (by decide)⟩

/-- Witness for `c8_bulk_update_stock` at the §8 bulk example
`{P1: +10, P2: -1000}` with P2 holding 5: P1 succeeds (50 → 60), P2 reports
failure with stock unchanged. -/
theorem c8_bulk_update_stock_witness :
    (bulkUpdateStock wBulkStore wBulkUpdates 99).1 = [(1, true), (2, false)] ∧
    findP (bulkUpdateStock wBulkStore wBulkUpdates 99).2 1 =
      some { wProduct with current_stock := 60, last_restocked := some 99 } ∧
    findP (bulkUpdateStock wBulkStore wBulkUpdates 99).2 2 = some bulkP2 := by
  have h := c8_bulk_update_stock wBulkStore wBulkUpdates 99 (by decide)
  exact ⟨h.1.trans (by decide),
    (h.2.1 1 10 (by decide)).trans (by decide),
    (h.2.1 2 (-1000) (by decide)).trans (by decide)⟩

/-- Witness for `c9_cancel_frame` on the §8 sale. -/
theorem c9_cancel_frame_witness :
    ∃ s', findSale (cancelSale wDB2 1).2.2.sales 1 = some s' ∧
      s'.total_amount = wSale.total_amount ∧ s'.tax_amount = wSale.tax_amount ∧
      s'.discount_amount = wSale.discount_amount ∧
      s'.grand_total = wSale.grand_total ∧
      s'.items = wSale.items ∧ s'.id = wSale.id ∧
      s'.sale_number = wSale.sale_number ∧
      s'.customer_name = wSale.customer_name ∧
      s'.payment_method = wSale.payment_method ∧
      s'.status = "cancelled" ∧
      s'.payment_status =
        (if wSale.payment_status = "paid" then "refunded" else "pending") :=
  c9_cancel_frame wDB2 1 wSale (by decide) (by decide)

/-- Witness for `c10_delete_draft`: deleting the draft sale created from the
§8 request succeeds and leaves the decremented stock (40, not 50) in
place. -/
theorem c10_delete_draft_witness :
    (deleteSale wDB3 wDraftSale.id).1 = true ∧
    (deleteSale wDB3 wDraftSale.id).2.products = wDB3.products :=
  (c10_delete_draft wDB 0).2.2.2 "20261012" wDraftCreate wDraftSale
    "Sale created successfully" wDB3 (by decide) (by decide)

end Inventory
